import Mathlib

/-!
Verification of the rayquaza Cairo virtual machine core.

The definitions below are a shallow embedding of the Rust sources under
crates/vm/src: the segmented write-once memory (memory/segment.rs,
memory/pointer.rs, memory/value.rs, memory/mod.rs), the instruction decoder
(instr.rs), the builtin interface (builtin.rs) and the step interpreter
(lib.rs).  Machine integers are modelled as Nat/Int with explicit reduction
modulo 2^64 exactly where the Rust code performs wrapping arithmetic; field
elements are modelled as ZMod p for the Starknet prime; fallible operations
return Except Error.  Allocation failure (segment growth running out of host
memory) is the single aspect not modelled: growth always succeeds, which is
observationally equivalent whenever the allocator does not fail.
-/

namespace Rayquaza

/-- The Starknet prime, the modulus of the field used by the VM. -/
def STARK_PRIME : Nat := 2 ^ 251 + 17 * 2 ^ 192 + 1

/-- Field elements (the Felt type of starknet-types-core). -/
abbrev Felt := ZMod STARK_PRIME

/-- The number of values of the 64-bit usize / u64 machine types. -/
def USIZE : Nat := 2 ^ 64

/-- Wrapping 64-bit addition (usize::wrapping_add). -/
def natWrapAdd (a b : Nat) : Nat := (a + b) % USIZE

/-- Wrapping 64-bit subtraction (usize::wrapping_sub); the subtrahend is
reduced first so the definition is total on Nat. -/
def natWrapSub (a b : Nat) : Nat := (a + (USIZE - b % USIZE)) % USIZE

/-- Reinterpretation of a 64-bit unsigned value as a signed one
(the Rust cast x as isize). -/
def toSigned64 (x : Nat) : Int :=
  if x % USIZE < 2 ^ 63 then (x % USIZE : Int) else (x % USIZE : Int) - (USIZE : Int)

/-- Reinterpretation of a 16-bit unsigned value as a signed one
(the Rust cast x as i16). -/
def toSigned16 (x : Nat) : Int :=
  if x % 2 ^ 16 < 2 ^ 15 then (x % 2 ^ 16 : Int) else (x % 2 ^ 16 : Int) - 2 ^ 16

/-- The composite cast x as isize as usize applied to a signed value, i.e.
the representative of x modulo 2^64. -/
def signedAsUsize (x : Int) : Nat := (x % (USIZE : Int)).toNat

/-- Felt::to_u64: succeeds exactly when the canonical representative fits in
64 bits (num_traits::ToPrimitive on the field element). -/
def Felt.to_u64 (f : Felt) : Option Nat :=
  if f.val < USIZE then some f.val else none

/-- Felt::to_usize (usize is 64-bit on the supported targets). -/
def Felt.to_usize (f : Felt) : Option Nat :=
  if f.val < USIZE then some f.val else none

/-- The error enum of crates/vm/src/error.rs. -/
inductive Error where
  | OutOfMemory
  | ProgramCounterLost
  | CantDeduceOp0
  | CantDeduceOp1
  | CantDeduceDst
  | Builtin
  | PointerTooLarge
  | InvalidPointerArithmetic
  | DivideByZero
  | IncoherentProvenance
  | InvalidAbsoluteJump
  | InvalidRelativeJump
  | InvalidReturn
  | Contradiction
  | UndefinedInstruction
  | UndefinedOp1Source
  | UndefinedResultLogic
  | UndefinedPcUpdate
  | UndefinedApUpdate
  | UndefinedOpCode
  | UndefinedApUpdateInCall
  | UndefinedConditionalJump
deriving DecidableEq, Repr

/-- Decidable equality of fallible results, for evaluating the embedding on
concrete inputs. -/
instance {ε α : Type} [DecidableEq ε] [DecidableEq α] :
    DecidableEq (Except ε α) := fun a b =>
  match a, b with
  | .ok x, .ok y =>
    if h : x = y then isTrue (by rw [h])
    else isFalse (by intro hh; injection hh; contradiction)
  | .error x, .error y =>
    if h : x = y then isTrue (by rw [h])
    else isFalse (by intro hh; injection hh; contradiction)
  | .ok _, .error _ => isFalse (fun hh => Except.noConfusion hh)
  | .error _, .ok _ => isFalse (fun hh => Except.noConfusion hh)

/-- The struct CannotDeduce of builtin.rs: a builtin lacked the inputs needed
to deduce the requested cell. -/
inductive CannotDeduce where
  | mk
deriving DecidableEq, Repr

/-- From\<CannotDeduce\> for Error (builtin.rs): the conversion maps the
cannot-deduce outcome onto the Error::Builtin variant. -/
def CannotDeduce.toError (_ : CannotDeduce) : Error := .Builtin

/-- A pointer within a memory segment (memory/pointer.rs). -/
structure Pointer where
  segment : Nat
  offset : Nat
deriving DecidableEq, Repr

/-- Pointer::subtract: the signed distance between two pointers of the same
segment, computed as offset.wrapping_sub(other.offset) as isize. -/
def Pointer.subtract (self other : Pointer) : Except Error Int :=
  if self.segment ≠ other.segment then
    .error .IncoherentProvenance
  else
    .ok (toSigned64 (natWrapSub self.offset other.offset))

/-- Pointer::wrapping_add: adds to the offset with wrapping arithmetic,
keeping the segment. -/
def Pointer.wrapping_add (self : Pointer) (offset : Nat) : Pointer :=
  ⟨self.segment, natWrapAdd self.offset offset⟩

/-- Pointer::wrapping_sub: subtracts from the offset with wrapping
arithmetic, keeping the segment. -/
def Pointer.wrapping_sub (self : Pointer) (offset : Nat) : Pointer :=
  ⟨self.segment, natWrapSub self.offset offset⟩

/-- A value storable in a memory cell (memory/value.rs): a field scalar or a
segment-tagged pointer. -/
inductive Value where
  | Scalar (f : Felt)
  | Pointer (p : Pointer)
deriving DecidableEq, Repr

/-- Value::subtract (memory/value.rs). -/
def Value.subtract (self other : Value) : Except Error Value :=
  match self with
  | .Scalar left =>
    match other with
    | .Scalar right => .ok (.Scalar (left - right))
    | .Pointer _ => .error .InvalidPointerArithmetic
  | .Pointer left =>
    match other with
    | .Scalar right =>
      match right.to_usize with
      | some r => .ok (.Pointer (left.wrapping_sub r))
      | none => .error .PointerTooLarge
    | .Pointer right =>
      (left.subtract right).map fun dist => .Scalar (Int.cast dist)

/-- Value::add (memory/value.rs). -/
def Value.add (self other : Value) : Except Error Value :=
  match self with
  | .Scalar left =>
    match other with
    | .Scalar right => .ok (.Scalar (left + right))
    | .Pointer right =>
      match left.to_usize with
      | some l => .ok (.Pointer (right.wrapping_add l))
      | none => .error .PointerTooLarge
  | .Pointer left =>
    match other with
    | .Scalar right =>
      match right.to_usize with
      | some r => .ok (.Pointer (left.wrapping_add r))
      | none => .error .PointerTooLarge
    | .Pointer _ => .error .InvalidPointerArithmetic

/-- Value::divide (memory/value.rs): the divisor must be a nonzero scalar,
checked before the dividend is inspected; division is field division. -/
def Value.divide (self other : Value) : Except Error Value :=
  match other with
  | .Scalar d =>
    if d = 0 then .error .DivideByZero
    else
      match self with
      | .Scalar n => .ok (.Scalar (n * d⁻¹))
      | .Pointer _ => .error .InvalidPointerArithmetic
  | .Pointer _ => .error .InvalidPointerArithmetic

/-- Value::multiply (memory/value.rs). -/
def Value.multiply (self other : Value) : Except Error Value :=
  match self with
  | .Scalar left =>
    match other with
    | .Scalar right => .ok (.Scalar (left * right))
    | .Pointer _ => .error .InvalidPointerArithmetic
  | .Pointer _ => .error .InvalidPointerArithmetic

/-- Value::is_zero: true exactly on Scalar 0; pointers are never zero. -/
def Value.is_zero (self : Value) : Bool :=
  match self with
  | .Scalar f => f = 0
  | .Pointer _ => false

/-- The PartialEq\<Pointer\> impl for Value: a scalar never equals a pointer,
and a pointer value compares by its payload. -/
def Value.eq_pointer (self : Value) (other : Rayquaza.Pointer) : Bool :=
  match self with
  | .Scalar _ => false
  | .Pointer p => p = other

/-- A memory segment (memory/segment.rs).  The parallel metadata and payload
arrays are modelled as a single list of optional values indexed by offset:
an entry none stands for metadata Unknown, and the list length is the
initialized length (the watermark).  The capacity / amortized-growth
machinery only controls allocation, which is modelled as always
succeeding. -/
structure Segment where
  cells : List (Option Value)
deriving DecidableEq, Repr

/-- Segment::new. -/
def Segment.new : Segment := ⟨[]⟩

/-- Segment::highest_known_cell: returns the initialized length. -/
def Segment.highest_known_cell (self : Segment) : Nat := self.cells.length

/-- Segment::get: none when the offset is at or above the watermark or the
cell's metadata is Unknown, otherwise the stored value. -/
def Segment.get (self : Segment) (index : Nat) : Option Value :=
  self.cells.getD index none

/-- The while-loop of Segment::assert_eq that appends Unknown metadata
entries until the requested index is below the initialized length. -/
def Segment.pad (self : Segment) (index : Nat) : List (Option Value) :=
  if self.cells.length ≤ index then
    self.cells ++ List.replicate (index + 1 - self.cells.length) none
  else
    self.cells

/-- Segment::assert_eq: pad with Unknown entries up to the requested index
when needed, then either record the value in an Unknown cell or compare it
with the recorded one, failing with Contradiction on mismatch.  On failure
the Rust segment is left exactly as it was (a known cell is never preceded
by growth or padding), so the caller keeps the pre-call segment. -/
def Segment.assert_eq (self : Segment) (index : Nat) (value : Value) :
    Except Error Segment :=
  match (self.pad index).getD index none with
  | none => .ok ⟨(self.pad index).set index (some value)⟩
  | some known =>
    if known = value then .ok ⟨self.pad index⟩ else .error .Contradiction

/-- The memory: a sequence of segments (memory/mod.rs). -/
structure Memory where
  segments : List Segment
deriving DecidableEq, Repr

/-- Memory::segment_unchecked: unchecked indexing; every caller in the VM
establishes that the index is in bounds, so the default returned on an
out-of-range index is never observed. -/
def Memory.segment_unchecked (self : Memory) (segment : Nat) : Segment :=
  self.segments.getD segment Segment.new

/-- The CPU registers (cpu.rs). -/
structure Cpu where
  pc : Pointer
  ap : Pointer
  fp : Pointer
deriving DecidableEq, Repr

/-- DstRegister (instr.rs). -/
inductive DstRegister where
  | AP
  | FP
deriving DecidableEq, Repr

/-- Op0Register (instr.rs). -/
inductive Op0Register where
  | AP
  | FP
deriving DecidableEq, Repr

/-- Op1Source (instr.rs). -/
inductive Op1Source where
  | Op0
  | PC
  | FP
  | AP
deriving DecidableEq, Repr

/-- ResultLogic (instr.rs). -/
inductive ResultLogic where
  | Op1
  | Add
  | Mul
deriving DecidableEq, Repr

/-- PcUpdate (instr.rs). -/
inductive PcUpdate where
  | Regular
  | AbsoluteJump
  | RelativeJump
  | ConditionalJump
deriving DecidableEq, Repr

/-- ApUpdate (instr.rs). -/
inductive ApUpdate where
  | None
  | AddResult
  | Increment
deriving DecidableEq, Repr

/-- OpCode (instr.rs). -/
inductive OpCode where
  | None
  | Call
  | Ret
  | AssertEq
deriving DecidableEq, Repr

/-- A packed 64-bit instruction word (instr.rs, struct Instruction(u64)). -/
structure Instruction where
  val : Nat
deriving DecidableEq, Repr

/-- Instruction::dst_offset: self.0 as u16 as i16. -/
def Instruction.dst_offset (self : Instruction) : Int :=
  toSigned16 (self.val % 2 ^ 16)

/-- Instruction::op0_offset: (self.0 \>\> 16) as u16 as i16. -/
def Instruction.op0_offset (self : Instruction) : Int :=
  toSigned16 ((self.val >>> 16) % 2 ^ 16)

/-- Instruction::op1_offset: (self.0 \>\> 32) as u16 as i16. -/
def Instruction.op1_offset (self : Instruction) : Int :=
  toSigned16 ((self.val >>> 32) % 2 ^ 16)

/-- Instruction::dst_register: tests bit 48 of the word. -/
def Instruction.dst_register (self : Instruction) : DstRegister :=
  if self.val &&& 0x0001000000000000 ≠ 0 then .FP else .AP

/-- Instruction::op0_register: tests bit 49 of the word. -/
def Instruction.op0_register (self : Instruction) : Op0Register :=
  if self.val &&& 0x0002000000000000 ≠ 0 then .FP else .AP

/-- Instruction::op1_source: matches the word masked with bits 50 to 52
against the shifted one-hot codes. -/
def Instruction.op1_source (self : Instruction) : Except Error Op1Source :=
  let m := self.val &&& 0x001C000000000000
  if m = 0x0000000000000000 then .ok .Op0
  else if m = 0x0004000000000000 then .ok .PC
  else if m = 0x0008000000000000 then .ok .FP
  else if m = 0x0010000000000000 then .ok .AP
  else .error .UndefinedOp1Source

/-- Instruction::result_logic: matches the word masked with bits 53 to 54. -/
def Instruction.result_logic (self : Instruction) : Except Error ResultLogic :=
  let m := self.val &&& 0x0060000000000000
  if m = 0x0000000000000000 then .ok .Op1
  else if m = 0x0020000000000000 then .ok .Add
  else if m = 0x0040000000000000 then .ok .Mul
  else .error .UndefinedResultLogic

/-- Instruction::pc_update: matches the word masked with bits 55 to 57. -/
def Instruction.pc_update (self : Instruction) : Except Error PcUpdate :=
  let m := self.val &&& 0x0380000000000000
  if m = 0x0000000000000000 then .ok .Regular
  else if m = 0x0080000000000000 then .ok .AbsoluteJump
  else if m = 0x0100000000000000 then .ok .RelativeJump
  else if m = 0x0200000000000000 then .ok .ConditionalJump
  else .error .UndefinedPcUpdate

/-- Instruction::ap_update: matches the word masked with bits 58 to 59. -/
def Instruction.ap_update (self : Instruction) : Except Error ApUpdate :=
  let m := self.val &&& 0x0C00000000000000
  if m = 0x0000000000000000 then .ok .None
  else if m = 0x0400000000000000 then .ok .AddResult
  else if m = 0x0800000000000000 then .ok .Increment
  else .error .UndefinedApUpdate

/-- Instruction::op_code: matches the word masked with bits 60 to 63. -/
def Instruction.op_code (self : Instruction) : Except Error OpCode :=
  let m := self.val &&& 0xF000000000000000
  if m = 0x0000000000000000 then .ok .None
  else if m = 0x1000000000000000 then .ok .Call
  else if m = 0x2000000000000000 then .ok .Ret
  else if m = 0x4000000000000000 then .ok .AssertEq
  else .error .UndefinedOpCode

/-- Instruction::is_last_bit_set: tests bit 63 of the word. -/
def Instruction.is_last_bit_set (self : Instruction) : Bool :=
  self.val &&& 0x8000000000000000 ≠ 0

/-- The Builtin trait (builtin.rs): deduce receives the offset, a read-only
view of the builtin's segment and the current operand slot, and either
returns the value written into that slot or reports CannotDeduce.  (In Rust
the value is delivered through an out-parameter; the model returns it.) -/
structure Builtin where
  deduce : Nat → Segment → Value → Except CannotDeduce Value

/-- The BuiltinManager (lib.rs): builtins occupy the contiguous segment
range from min_segment inclusive to max_segment exclusive. -/
structure BuiltinManager where
  min_segment : Nat
  max_segment : Nat
  builtins : List Builtin

/-- BuiltinManager::get_runner: none outside the managed segment range; the
in-range lookup is unchecked in Rust, justified by the manager invariant
that the list spans the range, so the default is never observed. -/
def BuiltinManager.get_runner (self : BuiltinManager) (segment : Nat) :
    Option Builtin :=
  if segment < self.min_segment ∨ self.max_segment ≤ segment then
    none
  else
    some (self.builtins.getD (segment - self.min_segment)
      ⟨fun _ _ _ => .error .mk⟩)

/-- The full VM state (lib.rs, struct CairoVM). -/
structure CairoVM where
  cpu : Cpu
  memory : Memory
  builtins : BuiltinManager

/-- fetch_instruction (lib.rs): load the cell at pc, require a scalar that
fits in 64 bits. -/
def fetch_instruction (cpu : Cpu) (memory : Memory) : Except Error Instruction :=
  let segment := memory.segment_unchecked cpu.pc.segment
  match segment.get cpu.pc.offset with
  | none => .error .ProgramCounterLost
  | some (.Pointer _) => .error .ProgramCounterLost
  | some (.Scalar instr_cell) =>
    match instr_cell.to_u64 with
    | none => .error .UndefinedInstruction
    | some n => .ok ⟨n⟩

/-- The StepContextFlags bitflags (lib.rs), one Bool per bit. -/
structure StepContextFlags where
  dst_deduced : Bool := false
  dst_asserted : Bool := false
  op0_deduced : Bool := false
  op0_asserted : Bool := false
  op1_deduced : Bool := false
  op1_asserted : Bool := false
  size_two : Bool := false
deriving DecidableEq, Repr

/-- StepContextFlags::empty. -/
def StepContextFlags.empty : StepContextFlags := {}

/-- StepContextFlags::has_dst.  The Rust body is
self.contains(DST_ASSERTED.union(DST_DEDUCED)), and the bitflags contains
predicate demands every bit of its argument, so this is true only when the
destination is both asserted and deduced. -/
def StepContextFlags.has_dst (self : StepContextFlags) : Bool :=
  self.dst_asserted && self.dst_deduced

/-- StepContextFlags::has_op0: contains of the union of the two op0 bits,
hence true only when both bits are set. -/
def StepContextFlags.has_op0 (self : StepContextFlags) : Bool :=
  self.op0_asserted && self.op0_deduced

/-- StepContextFlags::has_op1: contains of the union of the two op1 bits,
hence true only when both bits are set. -/
def StepContextFlags.has_op1 (self : StepContextFlags) : Bool :=
  self.op1_asserted && self.op1_deduced

/-- StepContextFlags::instruction_size. -/
def StepContextFlags.instruction_size (self : StepContextFlags) : Nat :=
  if self.size_two then 2 else 1

/-- The per-step working state (lib.rs, struct StepContext). -/
structure StepContext where
  instruction : Instruction
  dst_addr : Pointer
  dst : Value
  op0_addr : Pointer
  op0 : Value
  op1_addr : Pointer
  op1 : Value
  flags : StepContextFlags
  next_fp : Pointer
  next_ap : Pointer
  next_pc : Pointer

/-- StepContext::initial: every field other than the instruction starts at a
dummy value. -/
def StepContext.initial (instruction : Instruction) : StepContext where
  instruction := instruction
  dst_addr := ⟨0, 0⟩
  dst := .Scalar 0
  op0_addr := ⟨0, 0⟩
  op0 := .Scalar 0
  op1_addr := ⟨0, 0⟩
  op1 := .Scalar 0
  flags := .empty
  next_fp := ⟨0, 0⟩
  next_ap := ⟨0, 0⟩
  next_pc := ⟨0, 0⟩

/-- compute_dst (lib.rs).  Note that the Rust body seeds dst_addr from
ctx.op0_addr (AP case) or ctx.op1_addr (FP case) — the dummy-initialized
context fields, since compute_dst runs first — and not from the CPU
registers. -/
def compute_dst (ctx : StepContext) (vm : CairoVM) : StepContext :=
  let ctx :=
    match ctx.instruction.dst_register with
    | .AP => { ctx with dst_addr := ctx.op0_addr }
    | .FP => { ctx with dst_addr := ctx.op1_addr }
  let ctx := { ctx with
    dst_addr := ⟨ctx.dst_addr.segment,
      natWrapAdd ctx.dst_addr.offset (signedAsUsize ctx.instruction.dst_offset)⟩ }
  let segment := vm.memory.segment_unchecked ctx.dst_addr.segment
  match segment.get ctx.dst_addr.offset with
  | some val =>
    { ctx with dst := val, flags := { ctx.flags with dst_asserted := true } }
  | none => ctx

/-- compute_op0 (lib.rs): the op0 address comes from ap or fp plus the
sign-extended op0 offset, then memory is probed. -/
def compute_op0 (ctx : StepContext) (vm : CairoVM) : StepContext :=
  let ctx :=
    match ctx.instruction.op0_register with
    | .AP => { ctx with op0_addr := vm.cpu.ap }
    | .FP => { ctx with op0_addr := vm.cpu.fp }
  let ctx := { ctx with
    op0_addr := ⟨ctx.op0_addr.segment,
      natWrapAdd ctx.op0_addr.offset (signedAsUsize ctx.instruction.op0_offset)⟩ }
  let segment := vm.memory.segment_unchecked ctx.op0_addr.segment
  match segment.get ctx.op0_addr.offset with
  | some val =>
    { ctx with op0 := val, flags := { ctx.flags with op0_asserted := true } }
  | none => ctx

/-- compute_op1 (lib.rs): the op1 address source depends on op1_source (the
PC source also marks the instruction as two cells wide), then the
sign-extended op1 offset is added and memory is probed. -/
def compute_op1 (ctx : StepContext) (vm : CairoVM) : Except Error StepContext :=
  match ctx.instruction.op1_source with
  | .error e => .error e
  | .ok src =>
    let ctx :=
      match src with
      | .Op0 => { ctx with op1_addr := ctx.op0_addr }
      | .PC => { ctx with op1_addr := vm.cpu.pc,
                          flags := { ctx.flags with size_two := true } }
      | .FP => { ctx with op1_addr := vm.cpu.fp }
      | .AP => { ctx with op1_addr := vm.cpu.ap }
    let ctx := { ctx with
      op1_addr := ⟨ctx.op1_addr.segment,
        natWrapAdd ctx.op1_addr.offset (signedAsUsize ctx.instruction.op1_offset)⟩ }
    let segment := vm.memory.segment_unchecked ctx.op1_addr.segment
    match segment.get ctx.op1_addr.offset with
    | some val =>
      .ok { ctx with op1 := val, flags := { ctx.flags with op1_asserted := true } }
    | none => .ok ctx

/-- deduce_with_builtin (lib.rs): ok (false, unchanged slot) when no builtin
is registered for the segment; a registered builtin either supplies the
value (ok (true, value)) or its CannotDeduce is converted into
Error::Builtin and propagated. -/
def deduce_with_builtin (p : Pointer) (vm : CairoVM) (result : Value) :
    Except Error (Bool × Value) :=
  match vm.builtins.get_runner p.segment with
  | none => .ok (false, result)
  | some runner =>
    let segment := vm.memory.segment_unchecked p.segment
    match runner.deduce p.offset segment result with
    | .ok v => .ok (true, v)
    | .error err => .error err.toError

/-- run_builtins (lib.rs): consult a builtin for op0 and then op1 whenever
has_op0 / has_op1 is false; dst is never submitted to a builtin. -/
def run_builtins (ctx : StepContext) (vm : CairoVM) : Except Error StepContext :=
  match (if ctx.flags.has_op0 then Except.ok (false, ctx.op0)
         else deduce_with_builtin ctx.op0_addr vm ctx.op0) with
  | .error e => .error e
  | .ok (deduced0, v0) =>
    let ctx :=
      if deduced0 then
        { ctx with op0 := v0, flags := { ctx.flags with op0_deduced := true } }
      else ctx
    match (if ctx.flags.has_op1 then Except.ok (false, ctx.op1)
           else deduce_with_builtin ctx.op1_addr vm ctx.op1) with
    | .error e => .error e
    | .ok (deduced1, v1) =>
      if deduced1 then
        .ok { ctx with op1 := v1,
                       flags := { ctx.flags with op1_deduced := true } }
      else .ok ctx

/-- deduce_op1_from_op0 (lib.rs): invert the result relation to find op1
from dst (and op0 when the logic needs it), returning whether a value was
produced together with the op1 slot. -/
def deduce_op1_from_op0 (res_logic : ResultLogic) (op0 : Option Value)
    (dst : Value) (op1 : Value) : Except Error (Bool × Value) :=
  match res_logic with
  | .Op1 => .ok (true, dst)
  | .Add =>
    match op0 with
    | none => .ok (false, op1)
    | some op0 =>
      match dst.subtract op0 with
      | .ok v => .ok (true, v)
      | .error e => .error e
  | .Mul =>
    match op0 with
    | none => .ok (false, op1)
    | some op0 =>
      match dst.divide op0 with
      | .ok v => .ok (true, v)
      | .error e => .error e

/-- deduce_op0_from_op1 (lib.rs): invert the result relation to find op0
from dst and op1; the Op1 logic cannot produce op0. -/
def deduce_op0_from_op1 (res_logic : ResultLogic) (op1 : Value) (dst : Value)
    (op0 : Value) : Except Error (Bool × Value) :=
  match res_logic with
  | .Op1 => .ok (false, op0)
  | .Add =>
    match dst.subtract op1 with
    | .ok v => .ok (true, v)
    | .error e => .error e
  | .Mul =>
    match dst.divide op1 with
    | .ok v => .ok (true, v)
    | .error e => .error e

/-- deduce_from_op_code (lib.rs).  In the Call arm the value compared and
deduced for op0 is fp.wrapping_add(instruction_size) — the variable is
even named fp_plus_size — although the comment above it demands
pc + instruction_size. -/
def deduce_from_op_code (ctx : StepContext) (vm : CairoVM) :
    Except Error StepContext :=
  match ctx.instruction.op_code with
  | .error e => .error e
  | .ok .Call =>
    let fp_plus_size := vm.cpu.fp.wrapping_add ctx.flags.instruction_size
    match
      (if ctx.flags.has_op0 then
        if ¬ctx.op0.eq_pointer fp_plus_size then
          Except.error Error.Contradiction
        else
          Except.ok ctx
      else
        Except.ok { ctx with op0 := .Pointer fp_plus_size,
                             flags := { ctx.flags with op0_deduced := true } }) with
    | .error e => .error e
    | .ok ctx =>
      if ctx.flags.has_dst then
        if ¬ctx.dst.eq_pointer vm.cpu.fp then
          .error Error.Contradiction
        else
          .ok ctx
      else
        .ok { ctx with dst := .Pointer vm.cpu.fp,
                       flags := { ctx.flags with dst_deduced := true } }
  | .ok .AssertEq =>
    if ctx.flags.has_dst then
      match ctx.instruction.result_logic with
      | .error e => .error e
      | .ok res_logic =>
        match
          (if ¬ctx.flags.has_op1 then
            let op0 := if ctx.flags.has_op0 then some ctx.op0 else none
            match deduce_op1_from_op0 res_logic op0 ctx.dst ctx.op1 with
            | .error e => Except.error e
            | .ok (ded, v) =>
              if ded then
                Except.ok { ctx with op1 := v,
                                     flags := { ctx.flags with op1_deduced := true } }
              else Except.ok ctx
          else Except.ok ctx) with
        | .error e => .error e
        | .ok ctx =>
          if ctx.flags.has_op1 && !ctx.flags.has_op0 then
            match deduce_op0_from_op1 res_logic ctx.op1 ctx.dst ctx.op0 with
            | .error e => .error e
            | .ok (ded, v) =>
              if ded then
                .ok { ctx with op0 := v,
                               flags := { ctx.flags with op0_deduced := true } }
              else .ok ctx
          else .ok ctx
    else .ok ctx
  | .ok _ => .ok ctx

/-- The operand phases of CairoVM::step after the fetch and reserved-bit
check: address resolution, builtin deduction and opcode deduction, in
source order. -/
def step_phases (vm : CairoVM) (instruction : Instruction) :
    Except Error StepContext :=
  let ctx := StepContext.initial instruction
  let ctx := compute_dst ctx vm
  let ctx := compute_op0 ctx vm
  match compute_op1 ctx vm with
  | .error e => .error e
  | .ok ctx =>
    match run_builtins ctx vm with
    | .error e => .error e
    | .ok ctx => deduce_from_op_code ctx vm

/-- CairoVM::step (lib.rs).  Mirrors the Rust &mut self by returning the
final VM state beside the result; the body ends after the opcode deduction
phase and performs no register update and no memory write. -/
def step (vm : CairoVM) : CairoVM × Except Error Unit :=
  match fetch_instruction vm.cpu vm.memory with
  | .error e => (vm, .error e)
  | .ok instruction =>
    if instruction.is_last_bit_set then
      (vm, .error .UndefinedInstruction)
    else
      match step_phases vm instruction with
      | .error e => (vm, .error e)
      | .ok _ => (vm, .ok ())

/-- The bit field of a word from bit lo (inclusive) spanning len bits, as
described by the layout table of the specification. -/
def specBits (w lo len : Nat) : Nat := (w >>> lo) % 2 ^ len

/-- Decoder for op1_src transcribed from the layout in the specification:
bits 50 to 52, one-hot over Op0 = 0, PC = 1, FP = 2, AP = 4. -/
def specOp1Source (w : Nat) : Except Error Op1Source :=
  let b := specBits w 50 3
  if b = 0 then .ok .Op0
  else if b = 1 then .ok .PC
  else if b = 2 then .ok .FP
  else if b = 4 then .ok .AP
  else .error .UndefinedOp1Source

/-- Decoder for res_logic transcribed from the specification: bits 53 to 54
over Op1 = 0, Add = 1, Mul = 2. -/
def specResultLogic (w : Nat) : Except Error ResultLogic :=
  let b := specBits w 53 2
  if b = 0 then .ok .Op1
  else if b = 1 then .ok .Add
  else if b = 2 then .ok .Mul
  else .error .UndefinedResultLogic

/-- Decoder for pc_update transcribed from the specification: bits 55 to 57
over Regular = 0, AbsJmp = 1, RelJmp = 2, CondJmp = 4. -/
def specPcUpdate (w : Nat) : Except Error PcUpdate :=
  let b := specBits w 55 3
  if b = 0 then .ok .Regular
  else if b = 1 then .ok .AbsoluteJump
  else if b = 2 then .ok .RelativeJump
  else if b = 4 then .ok .ConditionalJump
  else .error .UndefinedPcUpdate

/-- Decoder for ap_update transcribed from the specification: bits 58 to 59
over None = 0, AddRes = 1, Inc = 2. -/
def specApUpdate (w : Nat) : Except Error ApUpdate :=
  let b := specBits w 58 2
  if b = 0 then .ok .None
  else if b = 1 then .ok .AddResult
  else if b = 2 then .ok .Increment
  else .error .UndefinedApUpdate

/-- Decoder for the opcode transcribed from the specification: bits 60 to 63
over None = 0, Call = 1, Ret = 2, AssertEq = 4. -/
def specOpCode (w : Nat) : Except Error OpCode :=
  let b := specBits w 60 4
  if b = 0 then .ok .None
  else if b = 1 then .ok .Call
  else if b = 2 then .ok .Ret
  else if b = 4 then .ok .AssertEq
  else .error .UndefinedOpCode

/-- A caller issuing a sequence of assert_eq calls against one segment,
keeping the segment unchanged whenever a call fails (which is what the Rust
in-place assert_eq does on failure).  Returns the final segment together
with the indices of the calls that succeeded, in call order. -/
def runAsserts (s : Segment) : List (Nat × Value) → Segment × List Nat
  | [] => (s, [])
  | (i, v) :: rest =>
    match s.assert_eq i v with
    | .ok s' => ((runAsserts s' rest).1, i :: (runAsserts s' rest).2)
    | .error _ => runAsserts s rest

/-- The maximum of i + 1 over a list of indices, 0 for the empty list. -/
def maxSucc (l : List Nat) : Nat := l.foldr (fun i m => max (i + 1) m) 0

/-- The instruction word of Scenario A of the specification: dst_off = 0,
op0_off = 0, op1_off = 1, dst_reg = AP, op0_reg = AP, op1_src = PC,
res_logic = Op1, pc_update = Regular, ap_update = Inc, opcode = AssertEq. -/
def wordA : Nat := 2 ^ 32 + 2 ^ 50 + 2 ^ 59 + 2 ^ 62

/-- The pre-state of Scenario A: ap = fp = (1,0), pc = (0,0), segment 0
holding the instruction word followed by the immediate Scalar 7, segment 1
empty, no builtins. -/
def vmA : CairoVM where
  cpu := ⟨⟨0, 0⟩, ⟨1, 0⟩, ⟨1, 0⟩⟩
  memory := ⟨[⟨[some (.Scalar (wordA : Felt)), some (.Scalar 7)]⟩, ⟨[]⟩]⟩
  builtins := ⟨0, 0, []⟩

/-- A Call instruction word in the style of Scenario B: op1_off = 1,
op1_src = PC, pc_update = AbsJmp, ap_update = None, opcode = Call, all
offsets and registers otherwise zero / AP. -/
def wordB : Nat := 2 ^ 32 + 2 ^ 50 + 2 ^ 55 + 2 ^ 60

/-- The pre-state of the Call step of Scenario B: ap = fp = (1,0),
pc = (0,0), segment 0 holding the Call word and the immediate
Pointer (0,5), segment 1 empty, no builtins. -/
def vmB : CairoVM where
  cpu := ⟨⟨0, 0⟩, ⟨1, 0⟩, ⟨1, 0⟩⟩
  memory := ⟨[⟨[some (.Scalar (wordB : Felt)), some (.Pointer ⟨0, 5⟩)]⟩, ⟨[]⟩]⟩
  builtins := ⟨0, 0, []⟩

/-- A bare Call instruction word: opcode = Call, every other field zero
(op1_src = Op0, res_logic = Op1, pc_update = Regular, ap_update = None,
offsets 0, registers AP). -/
def wordC : Nat := 2 ^ 60

/-- A state in which op0 is already known from memory when a Call executes:
pc = (0,0), ap = (1,0), fp = (1,5); segment 0 holds the Call word and
segment 1 holds Scalar 99 at offset 0, which the operand probe asserts as
op0 (and op1). -/
def vmC : CairoVM where
  cpu := ⟨⟨0, 0⟩, ⟨1, 0⟩, ⟨1, 5⟩⟩
  memory := ⟨[⟨[some (.Scalar (wordC : Felt))]⟩, ⟨[some (.Scalar 99)]⟩]⟩
  builtins := ⟨0, 0, []⟩

/-- A builtin that can never deduce anything: it always reports
CannotDeduce. -/
def cannotDeduceBuiltin : Builtin := ⟨fun _ _ _ => .error .mk⟩

/-- A state whose op0 address (1,0) is unknown in memory and falls in the
segment of a registered builtin that reports CannotDeduce: pc = (0,0),
ap = fp = (1,0), segment 0 holding the all-zero instruction word (opcode
None, op1_src Op0), segment 1 empty, the builtin bound to segment 1. -/
def vmD : CairoVM where
  cpu := ⟨⟨0, 0⟩, ⟨1, 0⟩, ⟨1, 0⟩⟩
  memory := ⟨[⟨[some (.Scalar 0)]⟩, ⟨[]⟩]⟩
  builtins := ⟨1, 2, [cannotDeduceBuiltin]⟩

theorem Segment.get_some_lt {s : Segment} {i : Nat} {w : Value}
    (h : s.get i = some w) : i < s.cells.length := by
  by_contra hge
  push_neg at hge
  unfold Segment.get at h
  rw [List.getD_eq_getElem?_getD, List.getElem?_eq_none hge] at h
  simp at h

theorem Segment.pad_getD (s : Segment) (i j : Nat) :
    (s.pad i).getD j none = s.get j := by
  unfold Segment.pad Segment.get
  split
  · rw [List.getD_eq_getElem?_getD, List.getD_eq_getElem?_getD,
      List.getElem?_append]
    split
    · rfl
    · rw [List.getElem?_replicate]
      rw [List.getElem?_eq_none (by omega)]
      split <;> rfl
  · rfl

theorem Segment.pad_length (s : Segment) (i : Nat) :
    (s.pad i).length = max s.cells.length (i + 1) := by
  unfold Segment.pad
  split
  · rw [List.length_append, List.length_replicate]
    omega
  · omega

theorem Segment.pad_of_lt {s : Segment} {i : Nat} (h : i < s.cells.length) :
    s.pad i = s.cells := by
  unfold Segment.pad
  rw [if_neg (by omega)]

theorem Segment.assert_eq_known {s : Segment} {i : Nat} {w : Value}
    (v : Value) (h : s.get i = some w) :
    s.assert_eq i v = if w = v then .ok s else .error .Contradiction := by
  have hlt : i < s.cells.length := Segment.get_some_lt h
  unfold Segment.assert_eq
  rw [Segment.pad_getD, h, Segment.pad_of_lt hlt]

theorem Segment.assert_eq_unknown {s : Segment} {i : Nat} (v : Value)
    (h : s.get i = none) :
    s.assert_eq i v = .ok ⟨(s.pad i).set i (some v)⟩ := by
  unfold Segment.assert_eq
  rw [Segment.pad_getD, h]

theorem Segment.assert_eq_ok_get {s s' : Segment} {i : Nat} {v : Value}
    (h : s.assert_eq i v = .ok s') : s'.get i = some v := by
  rcases hg : s.get i with _ | w
  · rw [Segment.assert_eq_unknown v hg] at h
    cases h
    unfold Segment.get
    rw [List.getD_eq_getElem?_getD, List.getElem?_set]
    have hi : i < (s.pad i).length := by
      rw [Segment.pad_length]
      omega
    simp [hi]
  · rw [Segment.assert_eq_known v hg] at h
    by_cases hwv : w = v
    · rw [if_pos hwv] at h
      injection h with h
      subst h
      rw [hg, hwv]
    · rw [if_neg hwv] at h
      exact (Except.noConfusion h)

theorem Segment.assert_eq_ok_get_ne {s s' : Segment} {i j : Nat} {v : Value}
    (h : s.assert_eq i v = .ok s') (hne : j ≠ i) : s'.get j = s.get j := by
  rcases hg : s.get i with _ | w
  · rw [Segment.assert_eq_unknown v hg] at h
    cases h
    unfold Segment.get
    rw [List.getD_eq_getElem?_getD, List.getElem?_set,
      if_neg (fun hh => hne hh.symm), ← List.getD_eq_getElem?_getD]
    exact Segment.pad_getD s i j
  · rw [Segment.assert_eq_known v hg] at h
    split at h
    · cases h
      rfl
    · cases h

theorem Segment.assert_eq_ok_length {s s' : Segment} {i : Nat} {v : Value}
    (h : s.assert_eq i v = .ok s') :
    s'.cells.length = max s.cells.length (i + 1) := by
  rcases hg : s.get i with _ | w
  · rw [Segment.assert_eq_unknown v hg] at h
    cases h
    simp only [List.length_set]
    exact Segment.pad_length s i
  · have hlt : i < s.cells.length := Segment.get_some_lt hg
    rw [Segment.assert_eq_known v hg] at h
    split at h
    · cases h
      omega
    · cases h

theorem runAsserts_length (ops : List (Nat × Value)) :
    ∀ s : Segment, (runAsserts s ops).1.cells.length
      = max s.cells.length (maxSucc (runAsserts s ops).2) := by
  induction ops with
  | nil =>
    intro s
    simp [runAsserts, maxSucc]
  | cons hd rest ih =>
    intro s
    obtain ⟨i, v⟩ := hd
    unfold runAsserts
    rcases hc : s.assert_eq i v with e | s'
    · simpa using ih s
    · have h1 := ih s'
      have h2 := Segment.assert_eq_ok_length hc
      simp only [maxSucc, List.foldr] at h1 ⊢
      omega

theorem runAsserts_untouched (ops : List (Nat × Value)) :
    ∀ (s : Segment) (j : Nat), j ∉ (runAsserts s ops).2 →
      (runAsserts s ops).1.get j = s.get j := by
  induction ops with
  | nil =>
    intro s j _
    rfl
  | cons hd rest ih =>
    intro s j hj
    obtain ⟨i, v⟩ := hd
    unfold runAsserts at hj ⊢
    rcases hc : s.assert_eq i v with e | s'
    · rw [hc] at hj
      exact ih s j hj
    · rw [hc] at hj
      simp only [List.mem_cons, not_or] at hj
      rw [ih s' j hj.2]
      exact Segment.assert_eq_ok_get_ne hc hj.1

/-- C6: for every segment, index i and values v1 ≠ v2, after
assert_eq(i, v1) succeeds a subsequent assert_eq(i, v2) returns
Contradiction and leaves the segment unchanged, so get(i) still returns
v1. -/
theorem assert_eq_contradiction_preserves (s s' : Segment) (i : Nat)
    (v1 v2 : Value) (hne : v1 ≠ v2) (h : s.assert_eq i v1 = .ok s') :
    s'.assert_eq i v2 = .error .Contradiction ∧ s'.get i = some v1 := by
  have hg : s'.get i = some v1 := Segment.assert_eq_ok_get h
  refine ⟨?_, hg⟩
  rw [Segment.assert_eq_known v2 hg, if_neg hne]

theorem assert_eq_contradiction_preserves_witness :
    (Segment.new.assert_eq 3 (.Scalar 9)
      = .ok (Segment.mk [none, none, none, some (.Scalar 9)]))
    ∧ (Segment.mk [none, none, none, some (.Scalar 9)]).assert_eq 3 (.Scalar 10)
      = .error .Contradiction
    ∧ (Segment.mk [none, none, none, some (.Scalar 9)]).get 3
      = some (.Scalar 9) :=
  ⟨rfl,
   (assert_eq_contradiction_preserves Segment.new _ 3 (.Scalar 9) (.Scalar 10)
      (by decide) rfl).1,
   (assert_eq_contradiction_preserves Segment.new _ 3 (.Scalar 9) (.Scalar 10)
      (by decide) rfl).2⟩

/-- C9: after any finite sequence of assert_eq calls against a fresh
segment, highest_known_cell equals the maximum of i + 1 over the
successfully targeted indices i (0 when none succeeded), and every index
outside the successful ones still reads back as unknown. -/
theorem runAsserts_watermark (ops : List (Nat × Value)) :
    (runAsserts Segment.new ops).1.highest_known_cell
        = maxSucc (runAsserts Segment.new ops).2
    ∧ ∀ j : Nat, j ∉ (runAsserts Segment.new ops).2 →
        (runAsserts Segment.new ops).1.get j = none := by
  constructor
  · have h := runAsserts_length ops Segment.new
    have h0 : (Segment.new).cells.length = 0 := rfl
    unfold Segment.highest_known_cell
    omega
  · intro j hj
    rw [runAsserts_untouched ops Segment.new j hj]
    rfl

theorem runAsserts_watermark_witness :
    ((runAsserts Segment.new
        [(3, .Scalar 9), (3, .Scalar 10), (0, .Scalar 1)]).1.highest_known_cell
      = maxSucc (runAsserts Segment.new
        [(3, .Scalar 9), (3, .Scalar 10), (0, .Scalar 1)]).2)
    ∧ (runAsserts Segment.new
        [(3, .Scalar 9), (3, .Scalar 10), (0, .Scalar 1)]).1.get 1 = none :=
  ⟨(runAsserts_watermark [(3, .Scalar 9), (3, .Scalar 10), (0, .Scalar 1)]).1,
   (runAsserts_watermark [(3, .Scalar 9), (3, .Scalar 10), (0, .Scalar 1)]).2
     1 (by decide)⟩

theorem step_fst (vm : CairoVM) : (step vm).1 = vm := by
  unfold step
  split
  · rfl
  · split
    · rfl
    · split <;> rfl

/-- C10: every call to CairoVM::step, whether it returns ok or any error,
leaves the CPU registers and the entire memory exactly as they were. -/
theorem step_preserves_cpu_and_memory (vm : CairoVM) :
    (step vm).1.cpu = vm.cpu ∧ (step vm).1.memory = vm.memory := by
  rw [step_fst vm]
  exact ⟨rfl, rfl⟩

/-- C1 (evaluation of the code on Scenario A): the step returns ok, but the
memory cell (1,0) is still unknown afterwards and ap and pc still hold
their pre-state values (1,0) and (0,0) instead of the (1,1) and (0,2) the
specification demands, because step ends after the deduction phases without
committing writes or updating registers. -/
theorem scenarioA_step_no_effect :
    (step vmA).2 = .ok ()
    ∧ ((step vmA).1.memory.segment_unchecked 1).get 0 = none
    ∧ (step vmA).1.cpu.ap = ⟨1, 0⟩
    ∧ (step vmA).1.cpu.pc = ⟨0, 0⟩ :=
  ⟨rfl, rfl, rfl, rfl⟩

/-- C2 (evaluation of the code on the Scenario A pre-state): the
instruction selects dst_reg = AP and ap + dst_off = (1,0), yet compute_dst
produces dst_addr = (0,0) because it seeds the address from the
dummy-initialized op0_addr of the fresh context instead of reading the
CPU's ap. -/
theorem compute_dst_ignores_registers :
    (compute_dst (StepContext.initial ⟨wordA⟩) vmA).dst_addr = ⟨0, 0⟩
    ∧ (Instruction.mk wordA).dst_register = .AP
    ∧ vmA.cpu.ap.wrapping_add
        (signedAsUsize (Instruction.mk wordA).dst_offset) = ⟨1, 0⟩
    ∧ (⟨0, 0⟩ : Pointer) ≠ (⟨1, 0⟩ : Pointer) :=
  ⟨rfl, rfl, rfl, by decide⟩

/-- C3 (evaluation of the code): in a Call step whose op0 was already
asserted from memory as Scalar 99 — differing from pc + instr_size = (0,1)
— the deduction phases return ok instead of Contradiction and overwrite
op0 with fp + instr_size = (1,6), not pc + instr_size: has_op0 demands
both flag bits so the asserted operand is not recognized, and the compared
value is derived from fp rather than pc. -/
theorem call_deduction_skips_known_op0 :
    ((vmC.memory.segment_unchecked 1).get 0 = some (.Scalar 99))
    ∧ (step_phases vmC ⟨wordC⟩).map (fun ctx => ctx.op0)
        = .ok (.Pointer ⟨1, 6⟩)
    ∧ vmC.cpu.fp.wrapping_add 1 = ⟨1, 6⟩
    ∧ vmC.cpu.pc.wrapping_add 1 = ⟨0, 1⟩
    ∧ (Value.Pointer ⟨1, 6⟩ ≠ .Pointer ⟨0, 1⟩)
    ∧ (Value.Scalar 99 ≠ .Pointer ⟨0, 1⟩) :=
  ⟨rfl, rfl, rfl, rfl, by decide, by decide⟩

/-- C4 (evaluation of the code on a Scenario B Call step): the step
returns ok but writes neither of the two cells (1,0) and (1,1) and leaves
fp and ap at their old value (1,0) instead of old ap + 2 = (1,2). -/
theorem call_step_writes_nothing :
    (step vmB).2 = .ok ()
    ∧ ((step vmB).1.memory.segment_unchecked 1).get 0 = none
    ∧ ((step vmB).1.memory.segment_unchecked 1).get 1 = none
    ∧ (step vmB).1.cpu.fp = ⟨1, 0⟩
    ∧ (step vmB).1.cpu.ap = ⟨1, 0⟩ :=
  ⟨rfl, rfl, rfl, rfl, rfl⟩

/-- C5 (evaluation of the code): with op0 unknown in memory and a builtin
registered for its segment that reports it cannot deduce the value, the
step does not leave the operand unknown but fails with Error::Builtin,
because run_builtins converts CannotDeduce into that error and propagates
it. -/
theorem builtin_cannot_deduce_fails_step :
    ((vmD.memory.segment_unchecked 1).get 0 = none)
    ∧ (vmD.builtins.get_runner 1).isSome = true
    ∧ (step vmD).2 = .error .Builtin :=
  ⟨rfl, rfl, rfl⟩

theorem land_contiguous (w k j : Nat) :
    w &&& ((2 ^ j - 1) <<< k) = ((w >>> k) % 2 ^ j) <<< k := by
  apply Nat.eq_of_testBit_eq
  intro i
  simp only [Nat.testBit_land, Nat.testBit_shiftLeft, Nat.testBit_mod_two_pow,
    Nat.testBit_shiftRight, Nat.testBit_two_pow_sub_one]
  rcases Nat.lt_or_ge i k with h | h
  · simp [Nat.not_le_of_lt h]
  · have hk : k + (i - k) = i := by omega
    simp [h, hk, Bool.and_comm, Bool.and_left_comm]

theorem op1_source_eq_spec (w : Nat) :
    (Instruction.mk w).op1_source = specOp1Source w := by
  unfold Instruction.op1_source specOp1Source specBits
  have hmask : (0x001C000000000000 : Nat) = (2 ^ 3 - 1) <<< 50 := by
    norm_num [Nat.shiftLeft_eq]
  rw [hmask, land_contiguous]
  have hb : (w >>> 50) % 2 ^ 3 < 8 := Nat.mod_lt _ (by norm_num)
  revert hb
  generalize (w >>> 50) % 2 ^ 3 = b
  intro hb
  interval_cases b <;> rfl

theorem result_logic_eq_spec (w : Nat) :
    (Instruction.mk w).result_logic = specResultLogic w := by
  unfold Instruction.result_logic specResultLogic specBits
  have hmask : (0x0060000000000000 : Nat) = (2 ^ 2 - 1) <<< 53 := by
    norm_num [Nat.shiftLeft_eq]
  rw [hmask, land_contiguous]
  have hb : (w >>> 53) % 2 ^ 2 < 4 := Nat.mod_lt _ (by norm_num)
  revert hb
  generalize (w >>> 53) % 2 ^ 2 = b
  intro hb
  interval_cases b <;> rfl

theorem pc_update_eq_spec (w : Nat) :
    (Instruction.mk w).pc_update = specPcUpdate w := by
  unfold Instruction.pc_update specPcUpdate specBits
  have hmask : (0x0380000000000000 : Nat) = (2 ^ 3 - 1) <<< 55 := by
    norm_num [Nat.shiftLeft_eq]
  rw [hmask, land_contiguous]
  have hb : (w >>> 55) % 2 ^ 3 < 8 := Nat.mod_lt _ (by norm_num)
  revert hb
  generalize (w >>> 55) % 2 ^ 3 = b
  intro hb
  interval_cases b <;> rfl

theorem ap_update_eq_spec (w : Nat) :
    (Instruction.mk w).ap_update = specApUpdate w := by
  unfold Instruction.ap_update specApUpdate specBits
  have hmask : (0x0C00000000000000 : Nat) = (2 ^ 2 - 1) <<< 58 := by
    norm_num [Nat.shiftLeft_eq]
  rw [hmask, land_contiguous]
  have hb : (w >>> 58) % 2 ^ 2 < 4 := Nat.mod_lt _ (by norm_num)
  revert hb
  generalize (w >>> 58) % 2 ^ 2 = b
  intro hb
  interval_cases b <;> rfl

theorem op_code_eq_spec (w : Nat) :
    (Instruction.mk w).op_code = specOpCode w := by
  unfold Instruction.op_code specOpCode specBits
  have hmask : (0xF000000000000000 : Nat) = (2 ^ 4 - 1) <<< 60 := by
    norm_num [Nat.shiftLeft_eq]
  rw [hmask, land_contiguous]
  have hb : (w >>> 60) % 2 ^ 4 < 16 := Nat.mod_lt _ (by norm_num)
  revert hb
  generalize (w >>> 60) % 2 ^ 4 = b
  intro hb
  interval_cases b <;> rfl

theorem dst_register_eq_testBit (w : Nat) :
    (Instruction.mk w).dst_register
      = (if w.testBit 48 then DstRegister.FP else DstRegister.AP) := by
  unfold Instruction.dst_register
  have hmask : (0x0001000000000000 : Nat) = 2 ^ 48 := by norm_num
  rw [hmask, Nat.and_two_pow]
  cases h : w.testBit 48 <;> simp [h]

theorem op0_register_eq_testBit (w : Nat) :
    (Instruction.mk w).op0_register
      = (if w.testBit 49 then Op0Register.FP else Op0Register.AP) := by
  unfold Instruction.op0_register
  have hmask : (0x0002000000000000 : Nat) = 2 ^ 49 := by norm_num
  rw [hmask, Nat.and_two_pow]
  cases h : w.testBit 49 <;> simp [h]

/-- C7: for every 64-bit instruction word the field decoders follow the
layout of the specification: each enum decoder returns exactly the variant
whose listed code matches the corresponding bit range, erring with the
matching Undefined variant on any other pattern; the three offsets are the
16-bit fields reinterpreted as i16; and the register selectors are bits 48
and 49 (set means FP). -/
theorem instruction_decoders_follow_layout (w : Nat) (_hw : w < 2 ^ 64) :
    (Instruction.mk w).op1_source = specOp1Source w
    ∧ (Instruction.mk w).result_logic = specResultLogic w
    ∧ (Instruction.mk w).pc_update = specPcUpdate w
    ∧ (Instruction.mk w).ap_update = specApUpdate w
    ∧ (Instruction.mk w).op_code = specOpCode w
    ∧ (Instruction.mk w).dst_offset = toSigned16 (specBits w 0 16)
    ∧ (Instruction.mk w).op0_offset = toSigned16 (specBits w 16 16)
    ∧ (Instruction.mk w).op1_offset = toSigned16 (specBits w 32 16)
    ∧ (Instruction.mk w).dst_register
        = (if w.testBit 48 then DstRegister.FP else DstRegister.AP)
    ∧ (Instruction.mk w).op0_register
        = (if w.testBit 49 then Op0Register.FP else Op0Register.AP) := by
  refine ⟨op1_source_eq_spec w, result_logic_eq_spec w, pc_update_eq_spec w,
    ap_update_eq_spec w, op_code_eq_spec w, ?_, rfl, rfl,
    dst_register_eq_testBit w, op0_register_eq_testBit w⟩
  unfold Instruction.dst_offset specBits
  rw [Nat.shiftRight_zero]

theorem instruction_decoders_follow_layout_witness :
    wordA < 2 ^ 64
    ∧ ((Instruction.mk wordA).op1_source = specOp1Source wordA
      ∧ (Instruction.mk wordA).result_logic = specResultLogic wordA
      ∧ (Instruction.mk wordA).pc_update = specPcUpdate wordA
      ∧ (Instruction.mk wordA).ap_update = specApUpdate wordA
      ∧ (Instruction.mk wordA).op_code = specOpCode wordA
      ∧ (Instruction.mk wordA).dst_offset = toSigned16 (specBits wordA 0 16)
      ∧ (Instruction.mk wordA).op0_offset = toSigned16 (specBits wordA 16 16)
      ∧ (Instruction.mk wordA).op1_offset = toSigned16 (specBits wordA 32 16)
      ∧ (Instruction.mk wordA).dst_register
          = (if wordA.testBit 48 then DstRegister.FP else DstRegister.AP)
      ∧ (Instruction.mk wordA).op0_register
          = (if wordA.testBit 49 then Op0Register.FP else Op0Register.AP)) :=
  ⟨by decide, instruction_decoders_follow_layout wordA (by decide)⟩

/-- C8 counterexample: subtracting the same-segment pointers (0, 2^63) and
(0, 0) yields the field element of -(2^63), i.e. p - 2^63, and not the
field element of the integer difference 2^63, because the 64-bit offset
difference is reinterpreted as a signed value before entering the field. -/
theorem pointer_subtract_wrap_counterexample :
    Value.subtract (.Pointer ⟨0, 2 ^ 63⟩) (.Pointer ⟨0, 0⟩)
      = .ok (.Scalar ((STARK_PRIME - 2 ^ 63 : Nat) : Felt))
    ∧ Value.subtract (.Pointer ⟨0, 2 ^ 63⟩) (.Pointer ⟨0, 0⟩)
      ≠ .ok (.Scalar ((2 ^ 63 : Nat) : Felt)) := by
  constructor
  · decide
  · decide

/-- C8 (amended): for same-segment pointers whose offset difference lies in
the signed 64-bit range, subtraction returns the scalar equal to the
integer difference of the offsets; for pointers of different segments it
returns IncoherentProvenance. -/
theorem value_subtract_pointers (sa oa ob sb : Nat)
    (hoa : oa < 2 ^ 64) (hob : ob < 2 ^ 64)
    (hlo : -(2 ^ 63 : Int) ≤ (oa : Int) - (ob : Int))
    (hhi : (oa : Int) - (ob : Int) < 2 ^ 63) :
    Value.subtract (.Pointer ⟨sa, oa⟩) (.Pointer ⟨sa, ob⟩)
      = .ok (.Scalar (Int.cast ((oa : Int) - (ob : Int))))
    ∧ (sb ≠ sa →
      Value.subtract (.Pointer ⟨sa, oa⟩) (.Pointer ⟨sb, ob⟩)
        = .error .IncoherentProvenance) := by
  have key : toSigned64 (natWrapSub oa ob) = (oa : Int) - (ob : Int) := by
    have hob' : ob % USIZE = ob := Nat.mod_eq_of_lt hob
    rcases Nat.lt_or_ge oa ob with hlt | hge
    · have hx : natWrapSub oa ob = oa + (2 ^ 64 - ob) := by
        unfold natWrapSub USIZE
        rw [Nat.mod_eq_of_lt hob]
        exact Nat.mod_eq_of_lt (by omega)
      unfold toSigned64 USIZE
      rw [hx, Nat.mod_eq_of_lt (show oa + (2 ^ 64 - ob) < 2 ^ 64 by omega),
        if_neg (by omega)]
      omega
    · have hx : natWrapSub oa ob = oa - ob := by
        unfold natWrapSub USIZE
        rw [Nat.mod_eq_of_lt hob]
        omega
      unfold toSigned64 USIZE
      rw [hx, Nat.mod_eq_of_lt (show oa - ob < 2 ^ 64 by omega),
        if_pos (by omega)]
      omega
  constructor
  · have hsub : Pointer.subtract ⟨sa, oa⟩ ⟨sa, ob⟩
        = .ok (toSigned64 (natWrapSub oa ob)) := by
      unfold Pointer.subtract
      simp
    show (Pointer.subtract ⟨sa, oa⟩ ⟨sa, ob⟩).map
        (fun dist => Value.Scalar (Int.cast dist))
      = .ok (.Scalar (Int.cast ((oa : Int) - (ob : Int))))
    rw [hsub, key]
    rfl
  · intro h
    have hsub : Pointer.subtract ⟨sa, oa⟩ ⟨sb, ob⟩
        = .error .IncoherentProvenance := by
      unfold Pointer.subtract
      simp [Ne.symm h]
    show (Pointer.subtract ⟨sa, oa⟩ ⟨sb, ob⟩).map
        (fun dist => Value.Scalar (Int.cast dist))
      = .error .IncoherentProvenance
    rw [hsub]
    rfl

theorem value_subtract_pointers_witness :
    (5 : Nat) < 2 ^ 64 ∧ (7 : Nat) < 2 ^ 64
    ∧ (Value.subtract (.Pointer ⟨0, 5⟩) (.Pointer ⟨0, 7⟩)
        = .ok (.Scalar (Int.cast ((5 : Int) - (7 : Int)))))
    ∧ (Value.subtract (.Pointer ⟨0, 5⟩) (.Pointer ⟨1, 7⟩)
        = .error .IncoherentProvenance) :=
  ⟨by decide, by decide,
   (value_subtract_pointers 0 5 7 1 (by decide) (by decide) (by decide)
      (by decide)).1,
   (value_subtract_pointers 0 5 7 1 (by decide) (by decide) (by decide)
      (by decide)).2 (by decide)⟩

end Rayquaza

